import Mathlib

/-!
Verification of the KernelWhale interactive command-execution session manager
(`src/main.js` IPC handlers and the `src/unnamed/part_000` preload bridge).

The relevant handlers are embedded as executable Lean definitions:
* the per-session data (`terminals.set` in `show-execution-modal`, main.js:154-161),
* the `execute-code` handler entry (main.js:43-58) and its per-process event
  callbacks (`stdout`/`stderr` `data`, `error`, `close`, main.js:96-123), given as
  a deterministic step function over per-session traces,
* the `kill-execution` handler with its 3-second `setTimeout` SIGKILL escalation
  (main.js:366-380),
* the `terminal-input` handler (main.js:418-426),
* the `get-terminal-buffer` handler (main.js:390-400),
* the Linux `script` wrapper single-quote escaping (main.js:81-85), compared with
  a model of POSIX shell quoting to show the quoted code parses back as one word.

The session buffer, a JavaScript string grown by `+=`, is modelled as the list of
appended chunks (its concatenation is the source's string); this makes chunk order
and append-only growth directly expressible.
-/

namespace KernelWhale

/-- Completion record `{stdout, stderr, exitCode, wasInterrupted}` built by the
`close` handler (main.js:121). `exitCode` is `none` for JavaScript `null`. -/
structure ExecResult where
  stdout : String
  stderr : String
  exitCode : Option Int
  wasInterrupted : Bool
deriving DecidableEq, Repr

/-- Stream tag of a `terminal-output` event (main.js:101,110). -/
inductive StreamType where
  | stdout
  | stderr
deriving DecidableEq, Repr

/-- A `terminal-output` event `{type, data}` sent to the rendering surface. -/
structure OutEvent where
  typ : StreamType
  data : String
deriving DecidableEq, Repr

/-- A value with which the `execute-code` promise is resolved (or returned early):
either the completion record of the `close` handler (main.js:122), the
`{error, stdout, stderr}` object of the `error` handler (main.js:115), or a bare
`{error}` object (main.js:45,56). -/
inductive Resolution where
  | completionRec (r : ExecResult)
  | errorRec (error : String) (stdout : String) (stderr : String)
  | simpleError (error : String)
deriving DecidableEq, Repr

/-- Per-session state stored in the `terminals` map (main.js:154-161).
`activeProcess` holds the identity of the running child process, `none` when no
process is attached. `buffer` is the list of appended chunks. -/
structure Session where
  activeProcess : Option Nat
  buffer : List String
  isExecutionComplete : Bool
  lastExecutionResult : Option ExecResult
  wasInterrupted : Bool
deriving DecidableEq, Repr

/-- The synthetic command echo placed in the buffer at session creation
(main.js:157). -/
def echoLine (code : String) : String :=
  "\x1B[1;36m└─$ " ++ code ++ "\x1B[0m\r\n"

/-- The session record as created by `show-execution-modal` (main.js:154-161). -/
def newSession (code : String) : Session :=
  { activeProcess := none
    buffer := [echoLine code]
    isExecutionComplete := false
    lastExecutionResult := none
    wasInterrupted := false }

/-- A language registry entry `{cmd, args}` (main.js:13-28). -/
structure LangConfig where
  cmd : String
  args : List String
deriving DecidableEq, Repr

/-- The `LANGUAGE_COMMANDS` table (main.js:13-28), as a lookup on the
already-lowercased tag. -/
def LANGUAGE_COMMANDS (tag : String) : Option LangConfig :=
  if tag = "bash" then some ⟨"bash", ["-c"]⟩
  else if tag = "sh" then some ⟨"sh", ["-c"]⟩
  else if tag = "shell" then some ⟨"bash", ["-c"]⟩
  else if tag = "zsh" then some ⟨"zsh", ["-c"]⟩
  else if tag = "python" then some ⟨"python3", ["-c"]⟩
  else if tag = "python3" then some ⟨"python3", ["-c"]⟩
  else if tag = "py" then some ⟨"python3", ["-c"]⟩
  else if tag = "javascript" then some ⟨"node", ["-e"]⟩
  else if tag = "js" then some ⟨"node", ["-e"]⟩
  else if tag = "node" then some ⟨"node", ["-e"]⟩
  else if tag = "powershell" then some ⟨"powershell", ["-Command"]⟩
  else if tag = "ps1" then some ⟨"powershell", ["-Command"]⟩
  else if tag = "cmd" then some ⟨"cmd", ["/c"]⟩
  else if tag = "batch" then some ⟨"cmd", ["/c"]⟩
  else none

/-- `language.toLowerCase()` (main.js:52), character by character. -/
def lowerTag (s : String) : String :=
  String.mk (s.data.map Char.toLower)

/-- The unconditional field resets at the top of the `execute-code` handler
(main.js:47-49), performed before the language tag is checked. -/
def resetForExecution (s : Session) : Session :=
  { s with
    wasInterrupted := false
    isExecutionComplete := false
    lastExecutionResult := none }

/-- Synchronous outcome of the `execute-code` handler on a found session:
the session after the handler's synchronous mutations, the early resolution
(if the handler resolved without spawning), whether a process spawn is
attempted, and the output events emitted synchronously (always none). -/
structure ExecStartOut where
  session : Session
  result : Option Resolution
  spawned : Bool
  outputEvents : List OutEvent
deriving DecidableEq, Repr

/-- The `execute-code` handler body for a found session (main.js:47-58): the
field resets happen first (main.js:47-49), then the lowercased tag is looked up
(main.js:52-53); an unknown tag resolves `{error: "Unsupported language: ..."}`
with no spawn (main.js:55-58), otherwise the handler proceeds to spawn. -/
def executeCodeOnSession (s : Session) (language : String) : ExecStartOut :=
  let s1 := resetForExecution s
  match LANGUAGE_COMMANDS (lowerTag language) with
  | none =>
    { session := s1
      result := some (Resolution.simpleError ("Unsupported language: " ++ language))
      spawned := false
      outputEvents := [] }
  | some _ =>
    { session := s1
      result := none
      spawned := true
      outputEvents := [] }

/-- Result of the `execute-code` handler entry including the `terminals` lookup
(main.js:44-45): an unknown session id returns `{error: "Session not found"}`
at once; otherwise the per-session body runs. -/
inductive HandlerOut where
  | notFound
  | found (out : ExecStartOut)
deriving DecidableEq, Repr

/-- The `execute-code` handler entry (main.js:43-45): `terminals.get(sessionId)`
with `sessionId` possibly absent (the two-argument preload call
`__executeCode(code, language)` invokes the handler with `sessionId` equal to
JavaScript `undefined`, modelled as `none`; `terminals.get(undefined)` finds
nothing). `code` is carried but not consulted before the spawn step. -/
def executeCodeEntry (terminals : Nat → Option Session) (code language : String)
    (sessionId : Option Nat) : HandlerOut :=
  let _ := code
  match sessionId.bind terminals with
  | none => HandlerOut.notFound
  | some s => HandlerOut.found (executeCodeOnSession s language)

/-- The value returned to the invoker for each handler outcome: `notFound`
returns `{error: "Session not found"}` (main.js:45); a found session returns the
early resolution, if any. -/
def handlerResponse : HandlerOut → Option Resolution
  | HandlerOut.notFound => some (Resolution.simpleError "Session not found")
  | HandlerOut.found out => out.result

/-! ### Per-session trace semantics

One execution request and the asynchronous callbacks of its child process are
modelled as events acting on a combined state: the stored session, the
`stdout`/`stderr` accumulator locals of the `execute-code` closure
(main.js:73-74), the `terminal-output` events sent so far, the completion
records built by `close` handlers, and the resolution calls made so far (a
promise keeps only the first, but every call is recorded).

Guards encode what the runtime guarantees: `data`/`close`/`error` callbacks
belong to a spawned, not-yet-closed process, and — per the documented invariant
that a session owns at most one active process at a time — a new execution on a
session starts only when no process is active. -/

/-- Combined per-session execution state. -/
structure ExecState where
  sess : Session
  stdoutAcc : String
  stderrAcc : String
  events : List OutEvent
  completions : List ExecResult
  resolutions : List Resolution
deriving DecidableEq, Repr

/-- Events of one session's lifetime. -/
inductive Ev where
  | execSpawn (pid : Nat) (language : String)
  | execUnsupported (language : String)
  | dataOut (text : String)
  | dataErr (text : String)
  | procClose (exitCode : Option Int)
  | procError (msg : String)
  | interrupt
deriving DecidableEq, Repr

/-- Whether the event is a new `execute-code` request on the session. -/
def Ev.isExecRequest : Ev → Bool
  | Ev.execSpawn _ _ => true
  | Ev.execUnsupported _ => true
  | _ => false

/-- One event of the `execute-code` machinery:
* `execSpawn` — a request with a supported tag: the resets of main.js:47-49,
  fresh accumulators (main.js:73-74), and `termData.activeProcess = activeProcess`
  (main.js:94);
* `execUnsupported` — a request with an unsupported tag: the resets, then the
  early `{error}` resolution (main.js:55-58);
* `dataOut`/`dataErr` — the stdout/stderr `data` callbacks (main.js:96-112):
  accumulate, append the chunk to the session buffer, send a `terminal-output`
  event;
* `procClose` — the `close` callback (main.js:118-123): clear `activeProcess`,
  mark complete, store and resolve the completion record;
* `procError` — the `error` callback (main.js:114-116): resolve
  `{error, stdout, stderr}` and nothing else;
* `interrupt` — the session-field effect of `kill-execution` (main.js:368-369):
  set `wasInterrupted` when a process is active, otherwise do nothing. -/
def step (st : ExecState) (e : Ev) : Option ExecState :=
  match e with
  | Ev.execSpawn pid language =>
    if st.sess.activeProcess.isSome then none
    else if (LANGUAGE_COMMANDS (lowerTag language)).isSome then
      some { st with
        sess := { resetForExecution st.sess with activeProcess := some pid }
        stdoutAcc := ""
        stderrAcc := "" }
    else none
  | Ev.execUnsupported language =>
    if st.sess.activeProcess.isSome then none
    else if (LANGUAGE_COMMANDS (lowerTag language)).isSome then none
    else
      some { st with
        sess := resetForExecution st.sess
        resolutions := st.resolutions ++
          [Resolution.simpleError ("Unsupported language: " ++ language)] }
  | Ev.dataOut text =>
    match st.sess.activeProcess with
    | none => none
    | some _ =>
      some { st with
        stdoutAcc := st.stdoutAcc ++ text
        sess := { st.sess with buffer := st.sess.buffer ++ [text] }
        events := st.events ++ [⟨StreamType.stdout, text⟩] }
  | Ev.dataErr text =>
    match st.sess.activeProcess with
    | none => none
    | some _ =>
      some { st with
        stderrAcc := st.stderrAcc ++ text
        sess := { st.sess with buffer := st.sess.buffer ++ [text] }
        events := st.events ++ [⟨StreamType.stderr, text⟩] }
  | Ev.procClose exitCode =>
    match st.sess.activeProcess with
    | none => none
    | some _ =>
      let r : ExecResult :=
        ⟨st.stdoutAcc, st.stderrAcc, exitCode, st.sess.wasInterrupted⟩
      some { st with
        sess := { st.sess with
          activeProcess := none
          isExecutionComplete := true
          lastExecutionResult := some r }
        completions := st.completions ++ [r]
        resolutions := st.resolutions ++ [Resolution.completionRec r] }
  | Ev.procError msg =>
    match st.sess.activeProcess with
    | none => none
    | some _ =>
      some { st with
        resolutions := st.resolutions ++
          [Resolution.errorRec msg st.stdoutAcc st.stderrAcc] }
  | Ev.interrupt =>
    match st.sess.activeProcess with
    | none => some st
    | some _ =>
      some { st with sess := { st.sess with wasInterrupted := true } }

/-- Run a list of events from a state. -/
def runFrom (st : ExecState) : List Ev → Option ExecState
  | [] => some st
  | e :: evs =>
    match step st e with
    | none => none
    | some st2 => runFrom st2 evs

/-- Initial combined state for a freshly created session. -/
def initState (code : String) : ExecState :=
  { sess := newSession code
    stdoutAcc := ""
    stderrAcc := ""
    events := []
    completions := []
    resolutions := [] }

/-- Reply of the `get-terminal-buffer` handler for a found session
(main.js:392-398). -/
structure BufferReply where
  buffer : List String
  isComplete : Bool
  result : Option ExecResult
deriving DecidableEq, Repr

/-- The `get-terminal-buffer` handler on a found session (main.js:390-400). -/
def getTerminalBuffer (st : ExecState) : BufferReply :=
  { buffer := st.sess.buffer
    isComplete := st.sess.isExecutionComplete
    result := st.sess.lastExecutionResult }

/-! ### Interrupt escalation model (`kill-execution`, main.js:366-380)

The child process is modelled by four booleans: whether its stdin stream is
writable, whether it stops on a (tty-delivered or direct) SIGINT, Node's
`killed` flag (set exactly when a signal was sent through the handle by
`p.kill`), and whether the OS process has exited. -/

/-- A child process handle as seen by `kill-execution`. -/
structure Proc where
  stdinWritable : Bool
  handlesSigint : Bool
  killed : Bool
  exited : Bool
deriving DecidableEq, Repr

/-- State after the interrupt machinery acted: the process, the session's
`wasInterrupted` flag, and which of the three actions were taken. -/
structure IntrState where
  proc : Proc
  wasInterrupted : Bool
  wroteIntrByte : Bool
  sigintSent : Bool
  sigkillSent : Bool
deriving DecidableEq, Repr

/-- The synchronous part of `kill-execution` on a session with an active process
(main.js:369-374): set `wasInterrupted = true`; if the process stdin is writable
write the interrupt byte `\x03` to it, else call `p.kill('SIGINT')`. Writing to
stdin sends no signal through the handle, so `killed` stays as it was; `p.kill`
sets `killed`. Either graceful action stops the process exactly when the process
responds to SIGINT. -/
def gracefulInterrupt (p : Proc) : IntrState :=
  if p.stdinWritable then
    { proc := { p with exited := p.exited || p.handlesSigint }
      wasInterrupted := true
      wroteIntrByte := true
      sigintSent := false
      sigkillSent := false }
  else
    { proc := { p with killed := true, exited := p.exited || p.handlesSigint }
      wasInterrupted := true
      wroteIntrByte := false
      sigintSent := true
      sigkillSent := false }

/-- The 3-second `setTimeout` callback of `kill-execution` (main.js:376-378):
`if (p && !p.killed) p.kill('SIGKILL')`. SIGKILL terminates the process. -/
def graceTimerFire (s : IntrState) : IntrState :=
  if s.proc.killed then s
  else
    { s with
      proc := { s.proc with killed := true, exited := true }
      sigkillSent := true }

/-- An interrupt followed by the expiry of the 3-second grace window. -/
def interruptRun (p : Proc) : IntrState :=
  graceTimerFire (gracefulInterrupt p)

/-- The delayed-kill timer scheduled by `kill-execution`: it captures the
process handle active at interrupt time (`const p = termData.activeProcess`,
main.js:375). -/
structure KillTimer where
  target : Nat
deriving DecidableEq, Repr

/-- A table assigning each process identity its handle state. -/
abbrev ProcTable : Type := Nat → Proc

/-- The session-level effect of `kill-execution` (main.js:366-380): on a session
with an active process, set `wasInterrupted` and schedule the timer on the
captured handle; on a session with no active process, do nothing. (The graceful
signal/byte delivery on the process itself is `gracefulInterrupt`.) -/
def killExecution (s : Session) : Option (Session × KillTimer) :=
  match s.activeProcess with
  | none => none
  | some pid => some ({ s with wasInterrupted := true }, ⟨pid⟩)

/-- The timer callback (main.js:376-378) acting on a process table: it consults
only the captured handle; if that handle's `killed` flag is unset it sends
SIGKILL to it. Returns the new table and the list of process identities
signalled. -/
def killTimerFire (t : KillTimer) (procs : ProcTable) : ProcTable × List Nat :=
  if (procs t.target).killed then (procs, [])
  else
    (fun pid =>
      if pid = t.target then
        { procs pid with killed := true, exited := true }
      else procs pid,
     [t.target])

/-! ### Input relay (`terminal-input`, main.js:418-426) -/

/-- The carriage-return character. -/
def cr : Char := Char.ofNat 13

/-- The line-feed character. -/
def lf : Char := Char.ofNat 10

/-- `text.replace(/\r/g, '\n')` (main.js:423): every carriage return becomes a
line feed, all other characters are kept. -/
def normalizeInput (text : String) : String :=
  String.mk (text.data.map (fun c => if c = cr then lf else c))

/-- The `terminal-input` handler on a found session (main.js:418-426): if the
session has an active process (whose stdin stream exists), the normalized text
is written to that stdin; otherwise nothing is written. Returns the text
written, if any. -/
def terminalInput (s : Session) (text : String) : Option String :=
  match s.activeProcess with
  | none => none
  | some _ => some (normalizeInput text)

/-! ### Linux `script` wrapper quoting (main.js:81-85) -/

/-- The single-quote character. -/
def squote : Char := Char.ofNat 39

/-- The backslash character. -/
def bslash : Char := Char.ofNat 92

/-- The space character. -/
def spaceC : Char := Char.ofNat 32

/-- `code.replace(/'/g, "'\\''")` (main.js:82): each single quote becomes the
four characters quote, backslash, quote, quote. -/
def escapeSingleQuotes : List Char → List Char
  | [] => []
  | c :: rest =>
    if c = squote then
      squote :: bslash :: squote :: squote :: escapeSingleQuotes rest
    else c :: escapeSingleQuotes rest

/-- The escaped code as a string. -/
def escapedCode (code : String) : String :=
  String.mk (escapeSingleQuotes code.data)

/-- A one-character string holding a single quote. -/
def squoteStr : String := String.mk [squote]

/-- The wrapper command line built on Linux (main.js:83-85):
`` `${langConfig.cmd} ${joinedArgs} '${escapedCode}'` `` with
`joinedArgs = langConfig.args.join(' ')`. -/
def wrapperArg (cfg : LangConfig) (code : String) : String :=
  cfg.cmd ++ " " ++ String.intercalate " " cfg.args ++ " " ++
    squoteStr ++ escapedCode code ++ squoteStr

/-- The spawn argument vector on Linux (main.js:84-85):
`['-qfec', wrapper, '/dev/null']`. -/
def spawnArgsLinux (cfg : LangConfig) (code : String) : List String :=
  ["-qfec", wrapperArg cfg code, "/dev/null"]

/-- Model of the POSIX shell quoting rules the wrapper relies on, restricted to
the constructs the escaped text can contain: outside quotes a backslash makes
the next character literal, a single quote opens a quoted span, and an unquoted
space ends the word; inside single quotes every character except the closing
quote is literal. `shellParseWord inQuote s` parses one word (its already-open
quoting mode given by `inQuote`) and returns the word's characters together with
the unconsumed remainder; `none` on an unterminated quote or trailing
backslash. This definition follows the specification's description of the
escaping contract, for comparison with the source-side `escapeSingleQuotes`. -/
def shellParseWord : Bool → List Char → Option (List Char × List Char)
  | true, [] => none
  | true, c :: rest =>
    if c = squote then shellParseWord false rest
    else (shellParseWord true rest).map (fun p => (c :: p.1, p.2))
  | false, [] => some ([], [])
  | false, c :: rest =>
    if c = spaceC then some ([], rest)
    else if c = squote then shellParseWord true rest
    else if c = bslash then
      match rest with
      | [] => none
      | d :: rest2 => (shellParseWord false rest2).map (fun p => (d :: p.1, p.2))
    else (shellParseWord false rest).map (fun p => (c :: p.1, p.2))
termination_by _ l => l.length
decreasing_by all_goals simp <;> omega

/-! ### Invariants of the per-session trace semantics -/

/-- The state invariant of a session created for `code`: completion flag and
stored result agree, a complete session has no active process, the buffer is the
synthetic echo followed by the data of the `terminal-output` events sent so far
(in order), and a complete session's stored result is the most recent completion
record. -/
def SessInv (code : String) (st : ExecState) : Prop :=
  st.sess.isExecutionComplete = st.sess.lastExecutionResult.isSome ∧
  (st.sess.isExecutionComplete = true → st.sess.activeProcess = none) ∧
  st.sess.buffer = echoLine code :: st.events.map OutEvent.data ∧
  (st.sess.isExecutionComplete = true →
    st.sess.lastExecutionResult = st.completions.getLast?)

theorem inv_init (code : String) : SessInv code (initState code) := by
  refine ⟨rfl, ?_, rfl, ?_⟩ <;> intro h <;> simp [initState, newSession] at h

theorem inv_step {code : String} {st st2 : ExecState} {e : Ev}
    (h : SessInv code st) (hs : step st e = some st2) : SessInv code st2 := by
  obtain ⟨h1, h2, h3, h4⟩ := h
  cases e with
  | execSpawn pid language =>
    by_cases ha : st.sess.activeProcess.isSome
    · simp [step, ha] at hs
    · by_cases hl : (LANGUAGE_COMMANDS (lowerTag language)).isSome
      · simp [step, ha, hl] at hs
        subst hs
        exact ⟨rfl, by simp [resetForExecution], by simpa [resetForExecution] using h3,
          by simp [resetForExecution]⟩
      · simp [step, ha, hl] at hs
  | execUnsupported language =>
    by_cases ha : st.sess.activeProcess.isSome
    · simp [step, ha] at hs
    · by_cases hl : (LANGUAGE_COMMANDS (lowerTag language)).isSome
      · simp [step, ha, hl] at hs
      · simp [step, ha, hl] at hs
        subst hs
        exact ⟨rfl, by simp [resetForExecution], by simpa [resetForExecution] using h3,
          by simp [resetForExecution]⟩
  | dataOut text =>
    cases hact : st.sess.activeProcess with
    | none => simp [step, hact] at hs
    | some pid =>
      simp [step, hact] at hs
      subst hs
      refine ⟨h1, ?_, ?_, ?_⟩
      · intro hc
        exact absurd (h2 hc) (by simp [hact])
      · simp [h3]
      · intro hc
        exact h4 hc
  | dataErr text =>
    cases hact : st.sess.activeProcess with
    | none => simp [step, hact] at hs
    | some pid =>
      simp [step, hact] at hs
      subst hs
      refine ⟨h1, ?_, ?_, ?_⟩
      · intro hc
        exact absurd (h2 hc) (by simp [hact])
      · simp [h3]
      · intro hc
        exact h4 hc
  | procClose exitCode =>
    cases hact : st.sess.activeProcess with
    | none => simp [step, hact] at hs
    | some pid =>
      simp [step, hact] at hs
      subst hs
      refine ⟨rfl, fun _ => rfl, h3, fun _ => ?_⟩
      simp
  | procError msg =>
    cases hact : st.sess.activeProcess with
    | none => simp [step, hact] at hs
    | some pid =>
      simp [step, hact] at hs
      subst hs
      exact ⟨h1, h2, h3, h4⟩
  | interrupt =>
    cases hact : st.sess.activeProcess with
    | none =>
      simp [step, hact] at hs
      subst hs
      exact ⟨h1, h2, h3, h4⟩
    | some pid =>
      simp [step, hact] at hs
      subst hs
      refine ⟨h1, ?_, h3, ?_⟩
      · intro hc
        exact absurd (h2 hc) (by simp [hact])
      · intro hc
        exact h4 hc

theorem inv_run {code : String} {st st2 : ExecState} {evs : List Ev}
    (h : SessInv code st) (hr : runFrom st evs = some st2) : SessInv code st2 := by
  induction evs generalizing st with
  | nil =>
    simp [runFrom] at hr
    subst hr
    exact h
  | cons e evs ih =>
    rw [runFrom] at hr
    cases hstep : step st e with
    | none => rw [hstep] at hr; simp at hr
    | some stM =>
      rw [hstep] at hr
      exact ih (inv_step h hstep) hr

theorem step_buffer_append {st st2 : ExecState} {e : Ev}
    (hs : step st e = some st2) :
    ∃ tail, st2.sess.buffer = st.sess.buffer ++ tail := by
  cases e with
  | execSpawn pid language =>
    by_cases ha : st.sess.activeProcess.isSome
    · simp [step, ha] at hs
    · by_cases hl : (LANGUAGE_COMMANDS (lowerTag language)).isSome
      · simp [step, ha, hl] at hs
        subst hs
        exact ⟨[], by simp [resetForExecution]⟩
      · simp [step, ha, hl] at hs
  | execUnsupported language =>
    by_cases ha : st.sess.activeProcess.isSome
    · simp [step, ha] at hs
    · by_cases hl : (LANGUAGE_COMMANDS (lowerTag language)).isSome
      · simp [step, ha, hl] at hs
      · simp [step, ha, hl] at hs
        subst hs
        exact ⟨[], by simp [resetForExecution]⟩
  | dataOut text =>
    cases hact : st.sess.activeProcess with
    | none => simp [step, hact] at hs
    | some pid =>
      simp [step, hact] at hs
      subst hs
      exact ⟨[text], rfl⟩
  | dataErr text =>
    cases hact : st.sess.activeProcess with
    | none => simp [step, hact] at hs
    | some pid =>
      simp [step, hact] at hs
      subst hs
      exact ⟨[text], rfl⟩
  | procClose exitCode =>
    cases hact : st.sess.activeProcess with
    | none => simp [step, hact] at hs
    | some pid =>
      simp [step, hact] at hs
      subst hs
      exact ⟨[], by simp⟩
  | procError msg =>
    cases hact : st.sess.activeProcess with
    | none => simp [step, hact] at hs
    | some pid =>
      simp [step, hact] at hs
      subst hs
      exact ⟨[], by simp⟩
  | interrupt =>
    cases hact : st.sess.activeProcess with
    | none =>
      simp [step, hact] at hs
      subst hs
      exact ⟨[], by simp⟩
    | some pid =>
      simp [step, hact] at hs
      subst hs
      exact ⟨[], by simp⟩

theorem runFrom_buffer_append {st st2 : ExecState} {evs : List Ev}
    (hr : runFrom st evs = some st2) :
    ∃ tail, st2.sess.buffer = st.sess.buffer ++ tail := by
  induction evs generalizing st with
  | nil =>
    simp [runFrom] at hr
    subst hr
    exact ⟨[], by simp⟩
  | cons e evs ih =>
    rw [runFrom] at hr
    cases hstep : step st e with
    | none => rw [hstep] at hr; simp at hr
    | some stM =>
      rw [hstep] at hr
      obtain ⟨t1, ht1⟩ := step_buffer_append hstep
      obtain ⟨t2, ht2⟩ := ih hr
      exact ⟨t1 ++ t2, by rw [ht2, ht1, List.append_assoc]⟩

theorem step_complete_frozen {code : String} {st st2 : ExecState} {e : Ev}
    (h : SessInv code st) (hc : st.sess.isExecutionComplete = true)
    (hne : e.isExecRequest = false) (hs : step st e = some st2) : st2 = st := by
  have hact : st.sess.activeProcess = none := h.2.1 hc
  cases e with
  | execSpawn pid language => simp [Ev.isExecRequest] at hne
  | execUnsupported language => simp [Ev.isExecRequest] at hne
  | dataOut text => simp [step, hact] at hs
  | dataErr text => simp [step, hact] at hs
  | procClose exitCode => simp [step, hact] at hs
  | procError msg => simp [step, hact] at hs
  | interrupt =>
    simp [step, hact] at hs
    exact hs.symm

theorem runFrom_complete_frozen {code : String} {st st2 : ExecState}
    {evs : List Ev} (h : SessInv code st)
    (hc : st.sess.isExecutionComplete = true)
    (hne : ∀ e ∈ evs, e.isExecRequest = false)
    (hr : runFrom st evs = some st2) : st2 = st := by
  induction evs with
  | nil =>
    simp [runFrom] at hr
    exact hr.symm
  | cons e evs ih =>
    rw [runFrom] at hr
    cases hstep : step st e with
    | none => rw [hstep] at hr; simp at hr
    | some stM =>
      rw [hstep] at hr
      have hM : stM = st := step_complete_frozen h hc (hne e (by simp)) hstep
      subst hM
      exact ih (fun e he => hne e (by simp [he])) hr

theorem step_complete_buffer_frozen {code : String} {st st3 : ExecState} {e : Ev}
    (h : SessInv code st) (hc : st.sess.isExecutionComplete = true)
    (hs : step st e = some st3) : st3.sess.buffer = st.sess.buffer := by
  have hact : st.sess.activeProcess = none := h.2.1 hc
  cases e with
  | execSpawn pid language =>
    by_cases hl : (LANGUAGE_COMMANDS (lowerTag language)).isSome
    · simp [step, hact, hl] at hs
      subst hs
      simp [resetForExecution]
    · simp [step, hact, hl] at hs
  | execUnsupported language =>
    by_cases hl : (LANGUAGE_COMMANDS (lowerTag language)).isSome
    · simp [step, hact, hl] at hs
    · simp [step, hact, hl] at hs
      subst hs
      simp [resetForExecution]
  | dataOut text => simp [step, hact] at hs
  | dataErr text => simp [step, hact] at hs
  | procClose exitCode => simp [step, hact] at hs
  | procError msg => simp [step, hact] at hs
  | interrupt =>
    simp [step, hact] at hs
    rw [← hs]

/-! ### Concrete states used to witness and refute claims -/

/-- A completed execution's result with exit code 0. -/
def wResult : ExecResult := ⟨"", "", some 0, false⟩

/-- A spawn followed by a clean close. -/
def wTrace : List Ev := [Ev.execSpawn 1 "bash", Ev.procClose (some 0)]

/-- The state after `wTrace` from a fresh session for code `"x"`. -/
def wSt1 : ExecState :=
  { sess :=
      { activeProcess := none
        buffer := [echoLine "x"]
        isExecutionComplete := true
        lastExecutionResult := some wResult
        wasInterrupted := false }
    stdoutAcc := ""
    stderrAcc := ""
    events := []
    completions := [wResult]
    resolutions := [Resolution.completionRec wResult] }

/-- The state after re-executing on the same session: the `execute-code` resets
(main.js:47-49) have cleared the completion state again. -/
def wSt2 : ExecState :=
  { sess :=
      { activeProcess := some 2
        buffer := [echoLine "x"]
        isExecutionComplete := false
        lastExecutionResult := none
        wasInterrupted := false }
    stdoutAcc := ""
    stderrAcc := ""
    events := []
    completions := [wResult]
    resolutions := [Resolution.completionRec wResult] }

/-- C1 as stated: along every session trace, once `isComplete` is true it stays
true (the false→true transition is irreversible). -/
def C1AsStated : Prop :=
  ∀ (code : String) (evs1 evs2 : List Ev) (st1 st2 : ExecState),
    runFrom (initState code) evs1 = some st1 →
    runFrom (initState code) (evs1 ++ evs2) = some st2 →
    st1.sess.isExecutionComplete = true →
    st2.sess.isExecutionComplete = true

/-- C1 counterexample: the claim as stated is false. `execute-code` resets
`isExecutionComplete` to `false` on every request (main.js:48), so re-executing
on a session whose run has completed takes `isComplete` from true back to false,
and a second close makes it transition false→true a second time. Witnessed by
the trace spawn(1), close(0), spawn(2) on one session. -/
theorem c1_counterexample : ¬ C1AsStated := by
  intro h
  have h2 := h "x" wTrace [Ev.execSpawn 2 "bash"] wSt1 wSt2 (by decide) (by decide)
    (by decide)
  exact absurd h2 (by decide)

/-- C1 (amended): `lastResult` is set if and only if `isComplete` is true, and a
complete session has no active process and a set `lastResult` — in every
reachable state; and the completion state is irreversible as long as no new
`execute-code` request arrives on the session (a new request resets it,
main.js:47-49): in fact the whole state is frozen. -/
theorem c1_completion_invariant (code : String) (evs1 evs2 : List Ev)
    (st1 st2 : ExecState)
    (h1 : runFrom (initState code) evs1 = some st1)
    (h2 : runFrom st1 evs2 = some st2)
    (hno : ∀ e ∈ evs2, e.isExecRequest = false) :
    (st2.sess.isExecutionComplete = st2.sess.lastExecutionResult.isSome) ∧
    (st2.sess.isExecutionComplete = true →
      st2.sess.activeProcess = none ∧
        st2.sess.lastExecutionResult.isSome = true) ∧
    (st1.sess.isExecutionComplete = true → st2 = st1) := by
  have inv1 : SessInv code st1 := inv_run (inv_init code) h1
  have inv2 : SessInv code st2 := inv_run inv1 h2
  refine ⟨inv2.1, fun hc => ⟨inv2.2.1 hc, by rw [← inv2.1]; exact hc⟩, fun hc => ?_⟩
  exact runFrom_complete_frozen inv1 hc hno h2

/-- Witness for C1 (amended) at the concrete trace spawn, close, interrupt. -/
theorem c1_completion_invariant_witness :
    (wSt1.sess.isExecutionComplete = wSt1.sess.lastExecutionResult.isSome) ∧
    (wSt1.sess.isExecutionComplete = true →
      wSt1.sess.activeProcess = none ∧
        wSt1.sess.lastExecutionResult.isSome = true) ∧
    (wSt1.sess.isExecutionComplete = true → wSt1 = wSt1) :=
  c1_completion_invariant "x" wTrace [Ev.interrupt] wSt1 wSt1 (by decide) (by decide)
    (by decide)

/-- C2: the buffer only grows — along every extension of a session trace the
earlier buffer is a prefix (no chunk removed or reordered, length
non-decreasing) — and from any reachable state in which `isComplete` is true, no
event mutates the buffer. -/
theorem c2_buffer_monotone (code : String) (evs1 evs2 : List Ev)
    (st1 st2 : ExecState)
    (h1 : runFrom (initState code) evs1 = some st1)
    (h2 : runFrom st1 evs2 = some st2) :
    (∃ tail, st2.sess.buffer = st1.sess.buffer ++ tail) ∧
    (st1.sess.isExecutionComplete = true →
      ∀ e st3, step st1 e = some st3 → st3.sess.buffer = st1.sess.buffer) := by
  have inv1 : SessInv code st1 := inv_run (inv_init code) h1
  exact ⟨runFrom_buffer_append h2,
    fun hc e st3 hs => step_complete_buffer_frozen inv1 hc hs⟩

/-- Witness for C2 at the concrete trace spawn, close / re-spawn. -/
theorem c2_buffer_monotone_witness :
    (∃ tail, wSt2.sess.buffer = wSt1.sess.buffer ++ tail) ∧
    (wSt1.sess.isExecutionComplete = true →
      ∀ e st3, step wSt1 e = some st3 → st3.sess.buffer = wSt1.sess.buffer) :=
  c2_buffer_monotone "x" wTrace [Ev.execSpawn 2 "bash"] wSt1 wSt2 (by decide)
    (by decide)

/-- A trace with one output chunk, used for the C4 witness. -/
def wTrace4 : List Ev :=
  [Ev.execSpawn 1 "python", Ev.dataOut "hi\n", Ev.procClose (some 0)]

/-- The completion record of `wTrace4`. -/
def wResult4 : ExecResult := ⟨"hi\n", "", some 0, false⟩

/-- The state after `wTrace4` from a fresh session for code `"print(1)"`. -/
def wSt4 : ExecState :=
  { sess :=
      { activeProcess := none
        buffer := [echoLine "print(1)", "hi\n"]
        isExecutionComplete := true
        lastExecutionResult := some wResult4
        wasInterrupted := false }
    stdoutAcc := "hi\n"
    stderrAcc := ""
    events := [⟨StreamType.stdout, "hi\n"⟩]
    completions := [wResult4]
    resolutions := [Resolution.completionRec wResult4] }

/-- C4: for a session queried after completion, `get-terminal-buffer` returns
the buffer streamed live — the synthetic command echo followed by the data of
all `terminal-output` events in arrival order — together with `isComplete = true`
and a set `result` equal to the most recent completion record (the payload of
the completion event). -/
theorem c4_catchup (code : String) (evs : List Ev) (st : ExecState)
    (h1 : runFrom (initState code) evs = some st)
    (hc : st.sess.isExecutionComplete = true) :
    getTerminalBuffer st =
      { buffer := echoLine code :: st.events.map OutEvent.data
        isComplete := true
        result := st.completions.getLast? } ∧
    (getTerminalBuffer st).result.isSome = true := by
  have inv : SessInv code st := inv_run (inv_init code) h1
  constructor
  · have hb := inv.2.2.1
    have hr := inv.2.2.2 hc
    rw [getTerminalBuffer, hb, hc, hr]
  · show st.sess.lastExecutionResult.isSome = true
    rw [← inv.1]
    exact hc

/-- Witness for C4 at the concrete trace spawn, one stdout chunk, close. -/
theorem c4_catchup_witness :
    getTerminalBuffer wSt4 =
      { buffer := echoLine "print(1)" :: wSt4.events.map OutEvent.data
        isComplete := true
        result := wSt4.completions.getLast? } ∧
    (getTerminalBuffer wSt4).result.isSome = true :=
  c4_catchup "print(1)" wTrace4 wSt4 (by decide) (by decide)

/-- A session that has already completed an execution, as left by a close with
exit code 0. -/
def completedSession : Session :=
  { activeProcess := none
    buffer := [echoLine "true"]
    isExecutionComplete := true
    lastExecutionResult := some wResult
    wasInterrupted := false }

/-- C5 counterexample: an unsupported tag spawns nothing, emits nothing and
returns an immediate error, but the session IS mutated beyond reflecting the
error: the resets of main.js:47-49 run before the language check, so a
previously completed session loses its completion state (`isComplete` drops from
true to false and `lastResult` is cleared), while the error itself is never
stored in the session. -/
theorem c5_counterexample :
    (executeCodeOnSession completedSession "cobol").spawned = false ∧
    (executeCodeOnSession completedSession "cobol").outputEvents = [] ∧
    (executeCodeOnSession completedSession "cobol").result =
      some (Resolution.simpleError "Unsupported language: cobol") ∧
    (executeCodeOnSession completedSession "cobol").session ≠ completedSession ∧
    (executeCodeOnSession completedSession "cobol").session.isExecutionComplete
      = false ∧
    completedSession.isExecutionComplete = true := by
  decide

/-- C5 (amended): on an unsupported language tag the handler returns the
immediate error `{error: "Unsupported language: <tag>"}`, spawns no process and
emits no output events; the only session mutation is the unconditional reset of
`wasInterrupted`, `isExecutionComplete` and `lastExecutionResult` performed
before the language check (main.js:47-49) — the buffer and the active process
are untouched and the error is not stored in the session. -/
theorem c5_unsupported_language (s : Session) (language : String)
    (h : LANGUAGE_COMMANDS (lowerTag language) = none) :
    executeCodeOnSession s language =
      { session := resetForExecution s
        result := some (Resolution.simpleError
          ("Unsupported language: " ++ language))
        spawned := false
        outputEvents := [] } ∧
    (resetForExecution s).buffer = s.buffer ∧
    (resetForExecution s).activeProcess = s.activeProcess := by
  refine ⟨?_, rfl, rfl⟩
  rw [executeCodeOnSession, h]

/-- Witness for C5 (amended) at the tag `"cobol"` on a completed session. -/
theorem c5_unsupported_language_witness :
    executeCodeOnSession completedSession "cobol" =
      { session := resetForExecution completedSession
        result := some (Resolution.simpleError "Unsupported language: cobol")
        spawned := false
        outputEvents := [] } ∧
    (resetForExecution completedSession).buffer = completedSession.buffer ∧
    (resetForExecution completedSession).activeProcess =
      completedSession.activeProcess :=
  c5_unsupported_language completedSession "cobol" (by decide)

/-- C6 counterexample: after a spawn-time failure (the `error` callback firing
with a system message such as ENOENT), the session is NOT marked complete and no
error is surfaced in it: `isExecutionComplete` is still false, and the
resolution is the `{error, stdout, stderr}` object, not a completion-shaped
record. This refutes the claim that the session is marked complete with the
error in place of normal output. -/
theorem c6_counterexample :
    (runFrom (initState "print(1)")
      [Ev.execSpawn 1 "python", Ev.procError "spawn python3 ENOENT"]).map
        (fun st => (st.sess.isExecutionComplete, st.sess.lastExecutionResult,
          st.resolutions)) =
    some (false, none,
      [Resolution.errorRec "spawn python3 ENOENT" "" ""]) := by
  decide

/-- C6 (amended): the `error` callback (main.js:114-116) resolves the run
immediately with the error record `{error: message, stdout, stderr}` carrying
the system error message and the output accumulated so far, and does nothing
else: the session is unchanged (in particular it is not marked complete and the
error is not stored in it) and no output event is emitted. -/
theorem c6_spawn_error_resolution (st : ExecState) (pid : Nat) (msg : String)
    (h : st.sess.activeProcess = some pid) :
    step st (Ev.procError msg) =
      some { st with resolutions := st.resolutions ++
        [Resolution.errorRec msg st.stdoutAcc st.stderrAcc] } := by
  simp [step, h]

/-- The state right after a spawn, used to witness C6. -/
def wStRunning : ExecState :=
  { sess :=
      { activeProcess := some 1
        buffer := [echoLine "print(1)"]
        isExecutionComplete := false
        lastExecutionResult := none
        wasInterrupted := false }
    stdoutAcc := ""
    stderrAcc := ""
    events := []
    completions := []
    resolutions := [] }

/-- Witness for C6 (amended) at a concrete running state. -/
theorem c6_spawn_error_resolution_witness :
    step wStRunning (Ev.procError "spawn python3 ENOENT") =
      some { wStRunning with resolutions := wStRunning.resolutions ++
        [Resolution.errorRec "spawn python3 ENOENT" wStRunning.stdoutAcc
          wStRunning.stderrAcc] } :=
  c6_spawn_error_resolution wStRunning 1 "spawn python3 ENOENT" rfl

/-- C7 (code bug): the fire-and-forget entry point
`__executeCode(code, language)` (part_000:5-7) invokes `execute-code` with no
session id, so `terminals.get(undefined)` finds nothing and the handler returns
`{error: "Session not found"}` immediately (main.js:44-45) — for every state of
the session table and every code/language pair. The code is never executed and
no completion record is ever produced, contradicting the documented purpose of
the two-argument entry point. -/
theorem c7_fire_and_forget_never_executes (terminals : Nat → Option Session)
    (code language : String) :
    executeCodeEntry terminals code language none = HandlerOut.notFound ∧
    handlerResponse (executeCodeEntry terminals code language none) =
      some (Resolution.simpleError "Session not found") :=
  ⟨rfl, rfl⟩

/-- A running process with unwritable stdin that ignores SIGINT. -/
def stubbornProc : Proc :=
  { stdinWritable := false, handlesSigint := false, killed := false,
    exited := false }

/-- C3 counterexample: for a running process whose stdin is not writable and
which ignores SIGINT, `kill-execution` sets `wasInterrupted` and sends SIGINT
via `p.kill`, which sets Node's `killed` flag; when the 3-second timer fires,
the guard `!p.killed` (main.js:377) is therefore false and NO forceful kill
signal is sent — the process is still active after the grace window. This
refutes both "a forceful kill signal is sent unconditionally" and "the process
is no longer active within the grace window plus a small scheduling delta". -/
theorem c3_counterexample :
    (interruptRun stubbornProc).wasInterrupted = true ∧
    (interruptRun stubbornProc).sigintSent = true ∧
    (interruptRun stubbornProc).sigkillSent = false ∧
    (interruptRun stubbornProc).proc.exited = false := by
  decide

/-- C3 (amended): interrupting a running process sets `wasInterrupted = true`
and writes the interrupt byte if stdin is writable, else sends SIGINT; when the
3-second timer fires, SIGKILL is sent exactly when no signal was previously sent
through the handle — that is, exactly in the interrupt-byte branch (the SIGINT
branch sets `p.killed`, so its timer never fires a SIGKILL). Consequently the
process is guaranteed gone after the grace window exactly when stdin was
writable or the process responds to SIGINT. -/
theorem c3_interrupt_escalation (p : Proc)
    (hk : p.killed = false) (he : p.exited = false) :
    (interruptRun p).wasInterrupted = true ∧
    (interruptRun p).wroteIntrByte = p.stdinWritable ∧
    (interruptRun p).sigintSent = !p.stdinWritable ∧
    (interruptRun p).sigkillSent = p.stdinWritable ∧
    (interruptRun p).proc.exited = (p.stdinWritable || p.handlesSigint) := by
  rcases p with ⟨sw, hsig, k, ex⟩
  simp only at hk he
  subst hk
  subst he
  cases sw <;> cases hsig <;> decide

/-- A running process with writable stdin that ignores SIGINT. -/
def writableProc : Proc :=
  { stdinWritable := true, handlesSigint := false, killed := false,
    exited := false }

/-- Witness for C3 (amended) at a process with writable stdin. -/
theorem c3_interrupt_escalation_witness :
    (interruptRun writableProc).wasInterrupted = true ∧
    (interruptRun writableProc).wroteIntrByte = writableProc.stdinWritable ∧
    (interruptRun writableProc).sigintSent = !writableProc.stdinWritable ∧
    (interruptRun writableProc).sigkillSent = writableProc.stdinWritable ∧
    (interruptRun writableProc).proc.exited =
      (writableProc.stdinWritable || writableProc.handlesSigint) :=
  c3_interrupt_escalation writableProc rfl rfl

/-- C10: the delayed forceful-kill timer scheduled by `kill-execution` captures
the handle active at interrupt time (`const p = termData.activeProcess`,
main.js:375): its target is exactly that process; whatever the process table
looks like when it fires, it signals at most that one process, leaves every
other process handle untouched, and does nothing at all if a signal was already
sent through the captured handle — in particular it never signals a process
spawned later on the same session (which has a different identity), regardless
of how the session was re-executed or deleted in the interim. -/
theorem c10_timer_confinement (s : Session) (pid : Nat) (s2 : Session)
    (t : KillTimer) (ha : s.activeProcess = some pid)
    (h : killExecution s = some (s2, t)) (procs : ProcTable) :
    t.target = pid ∧
    s2 = { s with wasInterrupted := true } ∧
    (∀ q ∈ (killTimerFire t procs).2, q = pid) ∧
    (∀ q, q ≠ pid → (killTimerFire t procs).1 q = procs q) ∧
    ((procs pid).killed = true → killTimerFire t procs = (procs, [])) := by
  rw [killExecution, ha] at h
  simp only [Option.some.injEq, Prod.mk.injEq] at h
  obtain ⟨hs2, ht⟩ := h
  subst hs2
  subst ht
  refine ⟨rfl, by rw [ha], ?_, ?_, ?_⟩
  · intro q hq
    by_cases hkil : (procs pid).killed <;> simp [killTimerFire, hkil] at hq
    exact hq
  · intro q hq
    by_cases hkil : (procs pid).killed <;> simp [killTimerFire, hkil, hq]
  · intro hkil
    simp [killTimerFire, hkil]

/-- A session with a running process, used to witness C10 and C8. -/
def runningSession : Session :=
  { activeProcess := some 1
    buffer := [echoLine "sleep 5"]
    isExecutionComplete := false
    lastExecutionResult := none
    wasInterrupted := false }

/-- A process table where every process is alive and unkilled. -/
def aliveTable : ProcTable := fun _ =>
  { stdinWritable := true, handlesSigint := true, killed := false,
    exited := false }

/-- Witness for C10 at a concrete session and process table. -/
theorem c10_timer_confinement_witness :
    (⟨1⟩ : KillTimer).target = 1 ∧
    ({ runningSession with wasInterrupted := true } : Session) =
      { runningSession with wasInterrupted := true } ∧
    (∀ q ∈ (killTimerFire ⟨1⟩ aliveTable).2, q = 1) ∧
    (∀ q, q ≠ 1 → (killTimerFire ⟨1⟩ aliveTable).1 q = aliveTable q) ∧
    ((aliveTable 1).killed = true → killTimerFire ⟨1⟩ aliveTable =
      (aliveTable, [])) :=
  c10_timer_confinement runningSession 1
    { runningSession with wasInterrupted := true } ⟨1⟩ rfl rfl aliveTable

/-- C8: input relayed to a session with an active process is written to the
process stdin with every carriage return replaced by a line feed and every
other character kept in place (same length, pointwise image, no carriage return
survives); input to a session with no active process is dropped: nothing is
written. -/
theorem c8_input_normalization (s : Session) (text : String) :
    (s.activeProcess = none → terminalInput s text = none) ∧
    (∀ out, terminalInput s text = some out →
      out.data = text.data.map (fun c => if c = cr then lf else c) ∧
      out.length = text.length ∧
      cr ∉ out.data) := by
  constructor
  · intro h
    rw [terminalInput, h]
  · intro out h
    cases ha : s.activeProcess with
    | none => rw [terminalInput, ha] at h; exact absurd h (by simp)
    | some pid =>
      rw [terminalInput, ha] at h
      simp only [Option.some.injEq] at h
      subst h
      refine ⟨rfl, ?_, ?_⟩
      · show (text.data.map _).length = text.data.length
        rw [List.length_map]
      · intro hmem
        rw [normalizeInput] at hmem
        simp only [List.mem_map] at hmem
        obtain ⟨c, _, hfc⟩ := hmem
        by_cases hc : c = cr
        · rw [if_pos hc] at hfc
          exact absurd hfc (by decide)
        · rw [if_neg hc] at hfc
          exact hc hfc

/-- Witness for C8 at a running session and the text `"ab\r"` (and at a session
with no active process). -/
theorem c8_input_normalization_witness :
    (runningSession.activeProcess = none →
      terminalInput runningSession "ab\r" = none) ∧
    (∀ out, terminalInput runningSession "ab\r" = some out →
      out.data = "ab\r".data.map (fun c => if c = cr then lf else c) ∧
      out.length = "ab\r".length ∧
      cr ∉ out.data) :=
  c8_input_normalization runningSession "ab\r"

theorem squote_ne_space : squote ≠ spaceC := by decide

theorem bslash_ne_space : bslash ≠ spaceC := by decide

theorem bslash_ne_squote : bslash ≠ squote := by decide

theorem spw_false_nil : shellParseWord false [] = some ([], []) := by
  rw [shellParseWord.eq_def]

theorem spw_true_squote (l : List Char) :
    shellParseWord true (squote :: l) = shellParseWord false l := by
  rw [shellParseWord.eq_def]
  simp

theorem spw_true_other {c : Char} (hc : c ≠ squote) (l : List Char) :
    shellParseWord true (c :: l) =
      (shellParseWord true l).map (fun p => (c :: p.1, p.2)) := by
  rw [shellParseWord.eq_def]
  simp [hc]

theorem spw_false_squote (l : List Char) :
    shellParseWord false (squote :: l) = shellParseWord true l := by
  rw [shellParseWord.eq_def]
  simp [squote_ne_space]

theorem spw_false_bslash (d : Char) (l : List Char) :
    shellParseWord false (bslash :: d :: l) =
      (shellParseWord false l).map (fun p => (d :: p.1, p.2)) := by
  rw [shellParseWord.eq_def]
  simp [bslash_ne_space, bslash_ne_squote]

/-- Parsing the escaped text from inside a single-quoted span: the escaped
characters all land in the current word, the closing quote that follows is
consumed, and parsing continues after it in unquoted mode. -/
theorem shellParseWord_escape (cs tail : List Char) :
    shellParseWord true (escapeSingleQuotes cs ++ squote :: tail) =
      (shellParseWord false tail).map (fun p => (cs ++ p.1, p.2)) := by
  induction cs with
  | nil =>
    rw [escapeSingleQuotes, List.nil_append, spw_true_squote]
    cases h : shellParseWord false tail with
    | none => rfl
    | some p => rfl
  | cons c cs ih =>
    by_cases hc : c = squote
    · subst hc
      show shellParseWord true
        (squote :: bslash :: squote :: squote ::
          (escapeSingleQuotes cs ++ squote :: tail)) = _
      rw [spw_true_squote, spw_false_bslash, spw_false_squote, ih]
      cases h : shellParseWord false tail with
      | none => rfl
      | some p => simp
    · simp only [escapeSingleQuotes, if_neg hc, List.cons_append]
      rw [spw_true_other hc, ih]
      cases h : shellParseWord false tail with
      | none => rfl
      | some p => simp

/-- C9: on Linux the spawn arguments place the escaped code inside a
single-quoted segment of the wrapper's command line
(`['-qfec', cmd args '<escaped>', '/dev/null']`, main.js:81-85), and shell
word-parsing of that single-quoted segment — the opening quote, the escaped
code (each single quote replaced by quote-backslash-quote-quote), the closing
quote — consumes it entirely and yields exactly the original code as a single
word. -/
theorem c9_single_quote_escaping (cfg : LangConfig) (code : String) :
    spawnArgsLinux cfg code =
      ["-qfec",
       cfg.cmd ++ " " ++ String.intercalate " " cfg.args ++ " " ++
         squoteStr ++ escapedCode code ++ squoteStr,
       "/dev/null"] ∧
    shellParseWord false (squote :: (escapeSingleQuotes code.data ++ [squote]))
      = some (code.data, []) := by
  refine ⟨rfl, ?_⟩
  rw [spw_false_squote, shellParseWord_escape code.data [], spw_false_nil]
  simp

end KernelWhale
